import Mathlib

/-!
# DuckChat server (duckchat_v2/server.c): shallow embedding and verification

This file embeds the state and the packet handlers of the DuckChat
multi-server chat relay (`src/duckchat_v2/server.c`) as executable Lean
definitions and proves properties of them.

Modelling conventions, stated once here:

* The generic containers (`hashmap.h` / `linkedlist.h`, borrowed from an
  external ADT library and not part of `src/`) are modelled as association
  lists in insertion order.  `hm_put` replaces the value in place when the
  key is present (the borrowed library's documented behaviour: the previous
  datum is handed back through the `previous` out-parameter) and appends
  otherwise.  `hm_keyArray` / `hm_entryArray` iteration is modelled as the
  association-list order; the C hash order is unspecified, and no theorem
  below depends on a particular order beyond "some fixed enumeration".
* A network address (`struct sockaddr_in`) is identified with its canonical
  `"<ip>:<port>"` string, which is how the server itself keys every map.
  `get_addr` on such a string is the identity in the model.
* `sendto` calls are collected in an output list of `(destination, packet)`
  pairs, in program order.
* Wall-clock reads (`time`/`localtime`, used only for the last-activity
  minute) are passed in as an explicit `now` argument to each handler that
  performs them; handlers that never read the clock take no such argument.
* `generate_id` (random bytes from `/dev/urandom`) is passed in as an
  explicit `newId` argument (or a list of them when a handler generates
  several); the handler queues it in the ID cache exactly as the C does.
* `malloc` is assumed to succeed; the C error paths for allocation failure
  are not modelled.
* In two places the C reads the routing-table entry after an `hm_get` whose
  result is discarded, so a missing entry would leave the local variable
  uninitialized (undefined behaviour).  The model reads such a missing
  entry as the empty list; every theorem below either supplies the entry or
  does not depend on this choice.
-/

/-- Embeds `MSGQ_SIZE` from properties.h: capacity of the message-ID cache. -/
def MSGQ_SIZE : Nat := 48

/-- Embeds `REFRESH_RATE` from properties.h: reap threshold in minutes. -/
def REFRESH_RATE : Nat := 2

/-- Embeds `DEFAULT_CHANNEL` from properties.h. -/
def DEFAULT_CHANNEL : String := "Common"

/-- Modelled from the spec: `duckchat.h` is not under `src/`; §6 of the spec
fixes `USERNAME_MAX` at 32 bytes (including the trailing NUL). -/
def USERNAME_MAX : Nat := 32

/-- Modelled from the spec: `duckchat.h` is not under `src/`; §6 of the spec
fixes `CHANNEL_MAX` at 32 bytes (including the trailing NUL). -/
def CHANNEL_MAX : Nat := 32

/-- Modelled from the spec: `duckchat.h` is not under `src/`; §6 of the spec
fixes `SAY_MAX` at 64 bytes (including the trailing NUL). -/
def SAY_MAX : Nat := 64

/-- Modelled from the spec: `duckchat.h` is not under `src/`; §6 of the spec
fixes `IP_MAX` at 64 bytes (including the trailing NUL). -/
def IP_MAX : Nat := 64

/-- Embeds `strncpy(dst, src, n)` into a zeroed buffer: keep the first `n`
characters of `src`.  All copies in the server pass `MAX - 1` for `n`. -/
def strTrunc (n : Nat) (s : String) : String :=
  String.mk (s.data.take n)

namespace HM

/-- Embeds `hm_get`: first value stored under `k`, if any. -/
def get {V : Type} (l : List (String × V)) (k : String) : Option V :=
  match l with
  | [] => none
  | (k1, v) :: t => if k1 = k then some v else get t k

/-- Embeds `hm_containsKey`. -/
def containsKey {V : Type} (l : List (String × V)) (k : String) : Bool :=
  (get l k).isSome

/-- Embeds `hm_put`: replace in place if the key is present, append otherwise. -/
def put {V : Type} (l : List (String × V)) (k : String) (v : V) :
    List (String × V) :=
  match l with
  | [] => [(k, v)]
  | (k1, v1) :: t => if k1 = k then (k1, v) :: t else (k1, v1) :: put t k v

/-- Embeds `hm_remove`: drop the entry stored under `k`, if any. -/
def remove {V : Type} (l : List (String × V)) (k : String) :
    List (String × V) :=
  match l with
  | [] => []
  | (k1, v1) :: t => if k1 = k then t else (k1, v1) :: remove t k

/-- Embeds `hm_keyArray`. -/
def keys {V : Type} (l : List (String × V)) : List String :=
  l.map Prod.fst

/-- Embeds `hm_isEmpty`. -/
def isEmpty {V : Type} (l : List (String × V)) : Bool :=
  l.isEmpty

/-- Embeds `hm_size`. -/
def size {V : Type} (l : List (String × V)) : Nat :=
  l.length

end HM

/-- A user record (`User` struct): the `addr`/`ip_addr` pair is identified
with the single string `ip`, exactly as the server keys the `users` map. -/
structure User where
  ip : String
  username : String
  channels : List String
  lastMin : Nat
  deriving Repr, DecidableEq

/-- A neighboring-server record (`Server` struct). -/
structure Peer where
  ip : String
  lastMin : Nat
  deriving Repr, DecidableEq

/-- The global mutable state of `server.c`: the four hash maps plus the
message-ID ring.  Channel-membership lists hold the member users' endpoint
strings (the C holds pointers to the very records stored in `users`, which
are keyed by that same string); routing-table lists hold the subscribed
peers' endpoint strings likewise. -/
structure ServerState where
  users : List (String × User)
  channels : List (String × List String)
  neighbors : List (String × Peer)
  rtable : List (String × List String)
  idCache : List Int
  currIndex : Nat
  deriving Repr, DecidableEq

/-- Datagrams the server can emit (`sendto` payloads). -/
inductive Packet where
  | txtSay (channel username text : String)
  | txtList (chans : List String)
  | txtWho (channel : String) (names : List String)
  | txtError (text : String)
  | txtVerify (valid : Bool)
  | s2sJoin (channel : String)
  | s2sLeave (channel : String)
  | s2sSay (id : Int) (channel username text : String)
  | s2sList (id : Int) (client : String) (chans toVisit : List String)
  | s2sWho (id : Int) (channel client : String) (names toVisit : List String)
  | s2sLeaf (id : Int) (channel : String)
  | s2sVerify (id : Int) (username client : String) (toVisit : List String)
  | s2sKeepAlive
  deriving Repr, DecidableEq

/-- One `sendto`: destination endpoint and payload. -/
abbrev Send := String × Packet

/-- Embeds `queue_id`: write at the ring index, advance, wrap at `MSGQ_SIZE`. -/
def queue_id (id : Int) (s : ServerState) : ServerState :=
  { s with
    idCache := s.idCache.set s.currIndex id
    currIndex := if s.currIndex + 1 ≥ MSGQ_SIZE then 0 else s.currIndex + 1 }

/-- Embeds `id_unique`: `true` iff `id` is in none of the cache slots. -/
def id_unique (id : Int) (s : ServerState) : Bool :=
  !(s.idCache.contains id)

/-- Embeds `update_user_time` on the record stored under `ip`. -/
def update_user_time (ip : String) (now : Nat) (s : ServerState) :
    ServerState :=
  match HM.get s.users ip with
  | none => s
  | some u => { s with users := HM.put s.users ip { u with lastMin := now } }

/-- Embeds `update_server_time` on the record stored under `ip`. -/
def update_server_time (ip : String) (now : Nat) (s : ServerState) :
    ServerState :=
  match HM.get s.neighbors ip with
  | none => s
  | some p =>
      { s with neighbors := HM.put s.neighbors ip { p with lastMin := now } }

/-- Remove the first occurrence of `x` (`ll_remove` after a linear search
comparing strings, the pervasive pattern in server.c). -/
def removeFirstStr (x : String) : List String → List String
  | [] => []
  | y :: t => if y = x then t else y :: removeFirstStr x t

/-- Ordered set insertion used by the gather handlers: add each element of
`xs` to `l` unless already present (`hm_containsKey` check before
`hm_put` into a scratch map, iterated in insertion order). -/
def dedupAdd (l : List String) (xs : List String) : List String :=
  xs.foldl (fun acc x => if acc.contains x then acc else acc ++ [x]) l

/-- Embeds `is_inactive`: minute difference modulo 60 exceeds `REFRESH_RATE`. -/
def is_inactive (lastMin now : Nat) : Bool :=
  (if now ≥ lastMin then now - lastMin else (60 - lastMin) + now) > REFRESH_RATE

/-- The leaf test of `remove_server_leaf` (server.c lines 384-398): not a
leaf when there are no peers at all; otherwise a leaf iff the routing-table
entry has fewer than 2 peers and the local membership (when the channel
exists) is empty.  A missing routing-table entry is read as empty (see the
undefined-behaviour note in the file header). -/
def leaf_test (channel : String) (s : ServerState) : Bool :=
  if HM.isEmpty s.neighbors then false
  else
    let servers := (HM.get s.rtable channel).getD []
    match HM.get s.channels channel with
    | some mem => decide (servers.length < 2) && mem.isEmpty
    | none => decide (servers.length < 2)

/-- Embeds `remove_server_leaf`: if this node is a leaf for `channel`, drop the
channel from the routing table and, when exactly one subscribed peer
remains, send it an S2S LEAVE.  Returns the leaf flag. -/
def remove_server_leaf (channel : String) (s : ServerState) :
    Bool × ServerState × List Send :=
  if leaf_test channel s then
    let servers := (HM.get s.rtable channel).getD []
    let s1 := { s with rtable := HM.remove s.rtable channel }
    match servers with
    | [] => (true, s1, [])
    | q :: _ =>
        (true, s1, [(q, Packet.s2sLeave (strTrunc (CHANNEL_MAX - 1) channel))])
  else (false, s, [])

/-- Embeds `neighbor_flood_channel`: S2S JOIN to every neighbor except the sender. -/
def neighbor_flood_channel (channel senderIp : String) (s : ServerState) :
    List Send :=
  if HM.isEmpty s.neighbors then []
  else
    (s.neighbors.filter (fun e => e.2.ip ≠ senderIp)).map
      (fun e => (e.2.ip, Packet.s2sJoin (strTrunc (CHANNEL_MAX - 1) channel)))

/-- Embeds `flood_s2s_keep_alive`. -/
def flood_s2s_keep_alive (s : ServerState) : List Send :=
  if HM.isEmpty s.neighbors then []
  else s.neighbors.map (fun e => (e.2.ip, Packet.s2sKeepAlive))

/-- Embeds `refresh_s2s_joins`: re-flood an S2S JOIN for every routing-table
channel (the sender-to-skip is this server's own address). -/
def refresh_s2s_joins (selfIp : String) (s : ServerState) : List Send :=
  (HM.keys s.rtable).flatMap (fun ch => neighbor_flood_channel ch selfIp s)

/-- Embeds `server_join_channel`: seed the routing-table entry for `channel` with
all current neighbors. -/
def server_join_channel (channel : String) (s : ServerState) : ServerState :=
  { s with
    rtable := HM.put s.rtable channel (s.neighbors.map (fun e => e.2.ip)) }

/-- Embeds `server_send_error`: a TXT_ERROR datagram; the message is truncated to
`SAY_MAX - 1` characters by the `strncpy` into the packet. -/
def server_send_error (dest msg : String) : Send :=
  (dest, Packet.txtError (strTrunc (SAY_MAX - 1) msg))

/-- The username of the member record referenced from a membership list
(the C list holds the pointer to the record stored in `users`). -/
def memberName (s : ServerState) (m : String) : String :=
  ((HM.get s.users m).map User.username).getD ""

/-- Embeds `broadcast_message`: TXT_SAY to every member of the list. -/
def broadcast_message (mem : List String) (username channel text : String) :
    List Send :=
  mem.map (fun m =>
    (m, Packet.txtSay (strTrunc (CHANNEL_MAX - 1) channel)
      (strTrunc (USERNAME_MAX - 1) username) (strTrunc (SAY_MAX - 1) text)))

/-- Embeds `server_login_request` (success path): create the user record under the
sender endpoint; no reply. -/
def server_login_request (name ip : String) (now : Nat) (s : ServerState) :
    ServerState × List Send :=
  let uname := strTrunc (USERNAME_MAX - 1) name
  ({ s with users := HM.put s.users ip ⟨ip, uname, [], now⟩ }, [])

/-- Embeds `server_join_request`. -/
def server_join_request (channel ip selfIp : String) (now : Nat)
    (s : ServerState) : ServerState × List Send :=
  match HM.get s.users ip with
  | none => (s, [])
  | some user0 =>
    let s1 := update_user_time ip now s
    let user := { user0 with lastMin := now }
    let joined := strTrunc (CHANNEL_MAX - 1) channel
    let subscribe :=
      !HM.isEmpty s1.neighbors && !HM.containsKey s1.rtable joined
    let s2 := if subscribe then server_join_channel joined s1 else s1
    let sends := if subscribe then neighbor_flood_channel joined selfIp s2
      else []
    let s3 := { s2 with
      users := HM.put s2.users ip
        { user with channels := user.channels ++ [joined] } }
    match HM.get s3.channels joined with
    | none =>
        ({ s3 with channels := HM.put s3.channels joined [user.ip] }, sends)
    | some mem =>
        if mem.contains user.ip then (s3, sends)
        else
          ({ s3 with
             channels := HM.put s3.channels joined (mem ++ [user.ip]) }, sends)

/-- Embeds `server_leave_request`.  `newId` is the value `generate_id` would
return in the leaf-probe branch. -/
def server_leave_request (channel ip : String) (now : Nat) (newId : Int)
    (s : ServerState) : ServerState × List Send :=
  match HM.get s.users ip with
  | none => (s, [])
  | some user0 =>
    let s1 := update_user_time ip now s
    let user := { user0 with lastMin := now }
    let ch := strTrunc (CHANNEL_MAX - 1) channel
    match HM.get s1.channels ch with
    | none =>
        (s1, [server_send_error user.ip
          ("No channel by the name " ++ channel ++ ".")])
    | some memList =>
      let removed := user.channels.contains ch
      let s2 := { s1 with
        users := HM.put s1.users ip
          { user with channels := removeFirstStr ch user.channels } }
      let mem1 := removeFirstStr user.ip memList
      let s3 := { s2 with channels := HM.put s2.channels ch mem1 }
      if !removed then
        (s3, [server_send_error user.ip
          ("You are not subscribed to " ++ ch ++ ".")])
      else
        let s4 := if mem1.isEmpty && ch ≠ DEFAULT_CHANNEL
          then { s3 with channels := HM.remove s3.channels ch } else s3
        let res := remove_server_leaf ch s4
        if res.1 then (res.2.1, res.2.2)
        else
          let s5 := res.2.1
          let anyClients := match HM.get s5.channels ch with
            | some l => !l.isEmpty
            | none => false
          if anyClients then (s5, [])
          else if !HM.isEmpty s5.neighbors then
            let s6 := queue_id newId s5
            let entry := (HM.get s5.rtable ch).getD []
            (s6, entry.map (fun q =>
              (q, Packet.s2sLeaf newId (strTrunc (CHANNEL_MAX - 1) ch))))
          else (s5, [])

/-- Embeds `server_say_request`.  `newId` is the `generate_id` value for the
outgoing S2S SAY. -/
def server_say_request (channel text ip : String) (now : Nat) (newId : Int)
    (s : ServerState) : ServerState × List Send :=
  match HM.get s.users ip with
  | none => (s, [])
  | some user0 =>
    match HM.get s.channels channel with
    | none => (s, [])
    | some mem =>
      let s1 := update_user_time ip now s
      let user := { user0 with lastMin := now }
      let bc := broadcast_message mem user.username channel text
      let s2 := queue_id newId s1
      match HM.get s2.rtable channel with
      | none => (s2, bc)
      | some entry =>
          (s2, bc ++ entry.map (fun q =>
            (q, Packet.s2sSay newId (strTrunc (CHANNEL_MAX - 1) channel)
              (strTrunc (USERNAME_MAX - 1) user.username)
              (strTrunc (SAY_MAX - 1) text))))

/-- Embeds `server_list_request`. -/
def server_list_request (ip : String) (now : Nat) (newId : Int)
    (s : ServerState) : ServerState × List Send :=
  match HM.get s.users ip with
  | none => (s, [])
  | some user0 =>
    let s1 := update_user_time ip now s
    let chKeys := HM.keys s1.channels
    if !HM.isEmpty s1.neighbors then
      let s2 := queue_id newId s1
      match HM.keys s1.neighbors with
      | [] => (s2, [])
      | first :: rest =>
          (s2, [(first, Packet.s2sList newId (strTrunc (IP_MAX - 1) ip)
            (chKeys.map (strTrunc (CHANNEL_MAX - 1)))
            (rest.map (strTrunc (CHANNEL_MAX - 1))))])
    else
      (s1, [(user0.ip,
        Packet.txtList (chKeys.map (strTrunc (CHANNEL_MAX - 1))))])

/-- Embeds `server_who_request`. -/
def server_who_request (channel ip : String) (now : Nat) (newId : Int)
    (s : ServerState) : ServerState × List Send :=
  match HM.get s.users ip with
  | none => (s, [])
  | some user0 =>
    let s1 := update_user_time ip now s
    let mem? := HM.get s1.channels channel
    let names := (mem?.getD []).map (memberName s1)
    if !HM.isEmpty s1.neighbors then
      let s2 := queue_id newId s1
      match HM.keys s1.neighbors with
      | [] => (s2, [])
      | first :: rest =>
          (s2, [(first, Packet.s2sWho newId (strTrunc (CHANNEL_MAX - 1) channel)
            (strTrunc (IP_MAX - 1) ip)
            (names.map (strTrunc (USERNAME_MAX - 1)))
            (rest.map (strTrunc (USERNAME_MAX - 1))))])
    else
      match mem? with
      | none =>
          (s1, [server_send_error user0.ip
            ("No channel by the name " ++ channel ++ ".")])
      | some _ =>
          (s1, [(user0.ip, Packet.txtWho (strTrunc (CHANNEL_MAX - 1) channel)
            (names.map (strTrunc (USERNAME_MAX - 1))))])

/-- Embeds `server_keep_alive_request`. -/
def server_keep_alive_request (ip : String) (now : Nat) (s : ServerState) :
    ServerState × List Send :=
  match HM.get s.users ip with
  | none => (s, [])
  | some _ => (update_user_time ip now s, [])

/-- Embeds `server_verify_request`: note that this handler performs no login check
and no user-time update. -/
def server_verify_request (name ip : String) (newId : Int)
    (s : ServerState) : ServerState × List Send :=
  let res := s.users.all (fun e => e.2.username ≠ name)
  if !HM.isEmpty s.neighbors && res then
    let s1 := queue_id newId s
    match HM.keys s.neighbors with
    | [] => (s1, [])
    | first :: rest =>
        (s1, [(first, Packet.s2sVerify newId name (strTrunc (IP_MAX - 1) ip)
          (rest.map (strTrunc (IP_MAX - 1))))])
  else (s, [(ip, Packet.txtVerify res)])

/-- The per-channel body of `logout_user`: walk the user's channel list,
removing the user from each membership list, deleting emptied non-default
channels, pruning leaves, and probing downstream peers with S2S LEAF when
no local client remains.  `ids` is the stream of `generate_id` values; the
unconsumed remainder is returned. -/
def logout_loop (uip : String) (chs : List String) (ids : List Int)
    (s : ServerState) : ServerState × List Send × List Int :=
  match chs with
  | [] => (s, [], ids)
  | ch :: rest =>
    match HM.get s.channels ch with
    | none => logout_loop uip rest ids s
    | some mem =>
      let mem1 := removeFirstStr uip mem
      let s1 := { s with channels := HM.put s.channels ch mem1 }
      let s2 := if mem1.isEmpty && ch ≠ DEFAULT_CHANNEL
        then { s1 with channels := HM.remove s1.channels ch } else s1
      let res := remove_server_leaf ch s2
      if res.1 then
        let rec2 := logout_loop uip rest ids res.2.1
        (rec2.1, res.2.2 ++ rec2.2.1, rec2.2.2)
      else
        let s3 := res.2.1
        let anyClients := match HM.get s3.channels ch with
          | some l => !l.isEmpty
          | none => false
        if anyClients then logout_loop uip rest ids s3
        else if !HM.isEmpty s3.neighbors then
          let id0 := ids.headD 0
          let s4 := queue_id id0 s3
          let entry := (HM.get s3.rtable ch).getD []
          let probes := entry.map (fun q =>
            (q, Packet.s2sLeaf id0 (strTrunc (CHANNEL_MAX - 1) ch)))
          let rec2 := logout_loop uip rest ids.tail s4
          (rec2.1, probes ++ rec2.2.1, rec2.2.2)
        else logout_loop uip rest ids s3

/-- Embeds `logout_user` on a record already detached from the `users` map. -/
def logout_user (u : User) (ids : List Int) (s : ServerState) :
    ServerState × List Send × List Int :=
  logout_loop u.ip u.channels ids s

/-- Embeds `server_logout_request`. -/
def server_logout_request (ip : String) (ids : List Int) (s : ServerState) :
    ServerState × List Send :=
  match HM.get s.users ip with
  | none => (s, [])
  | some u =>
    let r := logout_user u ids { s with users := HM.remove s.users ip }
    (r.1, r.2.1)

/-- Embeds `s2s_join_request`. -/
def s2s_join_request (channel senderIp : String) (now : Nat)
    (s : ServerState) : ServerState × List Send :=
  match HM.get s.neighbors senderIp with
  | none => (s, [])
  | some sender0 =>
    let s1 := update_server_time senderIp now s
    let sender := { sender0 with lastMin := now }
    match HM.get s1.rtable channel with
    | some entry =>
        if entry.contains senderIp then (s1, [])
        else
          ({ s1 with
             rtable := HM.put s1.rtable channel (entry ++ [sender.ip]) }, [])
    | none =>
        let s2 := server_join_channel channel s1
        (s2, neighbor_flood_channel channel senderIp s2)

/-- Embeds `s2s_leave_request`: note no sender lookup and no peer-time update. -/
def s2s_leave_request (channel senderIp : String) (s : ServerState) :
    ServerState × List Send :=
  match HM.get s.rtable channel with
  | none => (s, [])
  | some entry =>
    let s1 := { s with
      rtable := HM.put s.rtable channel (removeFirstStr senderIp entry) }
    let res := remove_server_leaf channel s1
    (res.2.1, res.2.2)

/-- Embeds `s2s_say_request`. -/
def s2s_say_request (id : Int) (channel username text senderIp : String)
    (now : Nat) (s : ServerState) : ServerState × List Send :=
  match HM.get s.neighbors senderIp with
  | none => (s, [])
  | some sender0 =>
    let s1 := update_server_time senderIp now s
    let sender := { sender0 with lastMin := now }
    match HM.get s1.rtable channel with
    | none => (s1, [])
    | some entry =>
      if !(id_unique id s1) then
        (s1, [(sender.ip, Packet.s2sLeave (strTrunc (CHANNEL_MAX - 1) channel))])
      else
        let s2 := queue_id id s1
        let bc := match HM.get s2.channels channel with
          | some mem => broadcast_message mem username channel text
          | none => []
        let res := remove_server_leaf channel s2
        if res.1 then (res.2.1, bc ++ res.2.2)
        else
          (res.2.1, bc ++ (entry.filter (fun q => q ≠ sender.ip)).map
            (fun q => (q, Packet.s2sSay id channel username text)))

/-- Embeds `s2s_leaf_request`: note no sender lookup and no peer-time update.  In
the duplicate-ID branch the C sends the loop-cut S2S LEAVE to the `server`
variable left over from the search loop: the sender when found, otherwise
the last list element (an uninitialized read, modelled as no send, when the
entry is empty). -/
def s2s_leaf_request (id : Int) (channel senderIp : String)
    (s : ServerState) : ServerState × List Send :=
  let res := remove_server_leaf channel s
  if res.1 then (res.2.1, res.2.2)
  else
    let s1 := res.2.1
    if !(id_unique id s1) then
      match HM.get s1.rtable channel with
      | none => (s1, [])
      | some entry =>
        let entry1 := removeFirstStr senderIp entry
        let target : Option String :=
          if entry.contains senderIp then some senderIp else entry.getLast?
        let s2 := { s1 with rtable := HM.put s1.rtable channel entry1 }
        let s3 := if entry1.isEmpty
          then { s2 with rtable := HM.remove s2.rtable channel } else s2
        match target with
        | none => (s3, [])
        | some t =>
            (s3, [(t, Packet.s2sLeave (strTrunc (CHANNEL_MAX - 1) channel))])
    else
      let s2 := queue_id id s1
      let anyClients := match HM.get s2.channels channel with
        | some mem => !mem.isEmpty
        | none => false
      if anyClients then (s2, [])
      else
        let entry := (HM.get s2.rtable channel).getD []
        (s2, (entry.filter (fun q => q ≠ senderIp)).map
          (fun q => (q, Packet.s2sLeaf id channel)))

/-- Embeds `s2s_keep_alive_request`. -/
def s2s_keep_alive_request (senderIp : String) (now : Nat)
    (s : ServerState) : ServerState × List Send :=
  match HM.get s.neighbors senderIp with
  | none => (s, [])
  | some _ => (update_server_time senderIp now s, [])

/-- Embeds `s2s_verify_request`: note no sender lookup and no peer-time update. -/
def s2s_verify_request (id : Int) (name client : String)
    (toVisit : List String) (senderIp : String) (s : ServerState) :
    ServerState × List Send :=
  let unique := id_unique id s
  let s1 := if unique then queue_id id s else s
  let res := if unique then s.users.all (fun e => e.2.username ≠ name)
    else true
  let fromNbrs := if unique
    then (HM.keys s1.neighbors).filter (fun k => k ≠ senderIp) else []
  let ipSet := dedupAdd (dedupAdd [] fromNbrs) toVisit
  if ipSet.isEmpty || !res then
    (s1, [(client, Packet.txtVerify res)])
  else
    match ipSet with
    | [] => (s1, [])
    | first :: rest =>
        (s1, [(first, Packet.s2sVerify id name client rest)])

/-- Embeds `s2s_list_request`: note no sender lookup and no peer-time update. -/
def s2s_list_request (id : Int) (client : String)
    (chans toVisit : List String) (senderIp : String) (s : ServerState) :
    ServerState × List Send :=
  let chSet0 := dedupAdd [] chans
  let unique := id_unique id s
  let s1 := if unique then queue_id id s else s
  let chSet := if unique then dedupAdd chSet0 (HM.keys s1.channels)
    else chSet0
  let fromNbrs := if unique
    then (HM.keys s1.neighbors).filter (fun k => k ≠ senderIp) else []
  let ipSet := dedupAdd (dedupAdd [] fromNbrs) toVisit
  match ipSet with
  | [] =>
      (s1, [(client, Packet.txtList (chSet.map (strTrunc (CHANNEL_MAX - 1))))])
  | first :: rest =>
      (s1, [(first, Packet.s2sList id (strTrunc (IP_MAX - 1) client)
        (chSet.map (strTrunc (CHANNEL_MAX - 1)))
        (rest.map (strTrunc (CHANNEL_MAX - 1))))])

/-- Embeds `s2s_who_request`: note no sender lookup and no peer-time update. -/
def s2s_who_request (id : Int) (channel client : String)
    (names toVisit : List String) (senderIp : String) (s : ServerState) :
    ServerState × List Send :=
  let unique := id_unique id s
  let s1 := if unique then queue_id id s else s
  let unames := if unique then
      match HM.get s1.channels channel with
      | some mem =>
          if mem.isEmpty then names else names ++ mem.map (memberName s1)
      | none => names
    else names
  let fromNbrs := if unique
    then (HM.keys s1.neighbors).filter (fun k => k ≠ senderIp) else []
  let ipSet := dedupAdd (dedupAdd [] fromNbrs) toVisit
  match ipSet with
  | [] =>
      if unames.isEmpty && channel ≠ DEFAULT_CHANNEL then
        (s1, [server_send_error client
          ("No channel by the name " ++ channel ++ ".")])
      else
        (s1, [(client, Packet.txtWho (strTrunc (USERNAME_MAX - 1) channel)
          (unames.map (strTrunc (USERNAME_MAX - 1))))])
  | first :: rest =>
      (s1, [(first, Packet.s2sWho id (strTrunc (CHANNEL_MAX - 1) channel)
        (strTrunc (IP_MAX - 1) client)
        (unames.map (strTrunc (USERNAME_MAX - 1)))
        (rest.map (strTrunc (USERNAME_MAX - 1))))])

/-- Embeds `remove_server`: drop peer `ip` from every routing-table entry in
`chs`, pruning leaves as it goes. -/
def remove_server (ip : String) (chs : List String) (s : ServerState) :
    ServerState × List Send :=
  match chs with
  | [] => (s, [])
  | ch :: rest =>
    match HM.get s.rtable ch with
    | none => remove_server ip rest s
    | some entry =>
      if entry.contains ip then
        let s1 := { s with
          rtable := HM.put s.rtable ch (removeFirstStr ip entry) }
        let res := remove_server_leaf ch s1
        let rec2 := remove_server ip rest res.2.1
        (rec2.1, res.2.2 ++ rec2.2)
      else remove_server ip rest s

/-- The body of `logout_inactive_users`: fold over the snapshot of the
`users` map. -/
def reap_users_loop (entries : List (String × User)) (now : Nat)
    (ids : List Int) (s : ServerState) : ServerState × List Send :=
  match entries with
  | [] => (s, [])
  | (_, u) :: rest =>
    if is_inactive u.lastMin now then
      let s1 := { s with users := HM.remove s.users u.ip }
      let r := logout_user u ids s1
      let rec2 := reap_users_loop rest now r.2.2 r.1
      (rec2.1, r.2.1 ++ rec2.2)
    else reap_users_loop rest now ids s

/-- Embeds `logout_inactive_users`. -/
def logout_inactive_users (now : Nat) (ids : List Int) (s : ServerState) :
    ServerState × List Send :=
  if HM.isEmpty s.users then (s, [])
  else reap_users_loop s.users now ids s

/-- The body of `remove_inactive_servers`: fold over the snapshot of the
`neighbors` map, with the routing-table key snapshot `chs` taken first. -/
def reap_servers_loop (entries : List (String × Peer)) (chs : List String)
    (now : Nat) (s : ServerState) : ServerState × List Send :=
  match entries with
  | [] => (s, [])
  | (_, p) :: rest =>
    if is_inactive p.lastMin now then
      let s1 := { s with neighbors := HM.remove s.neighbors p.ip }
      let r := remove_server p.ip chs s1
      let rec2 := reap_servers_loop rest chs now r.1
      (rec2.1, r.2 ++ rec2.2)
    else reap_servers_loop rest chs now s

/-- Embeds `remove_inactive_servers`. -/
def remove_inactive_servers (now : Nat) (s : ServerState) :
    ServerState × List Send :=
  if HM.isEmpty s.neighbors then (s, [])
  else reap_servers_loop s.neighbors (HM.keys s.rtable) now s

/-- The state after `main`'s initialization: empty maps except for the
default channel (created with empty membership) and the startup peers; the
ID cache is zero-filled with the ring index at 0. -/
def initState (peers : List (String × Peer)) : ServerState :=
  { users := []
    channels := [(DEFAULT_CHANNEL, [])]
    neighbors := peers
    rtable := []
    idCache := List.replicate MSGQ_SIZE 0
    currIndex := 0 }

/-- One iteration of the event loop: a datagram dispatched to its handler
(with the sender endpoint, clock minute and generated IDs arbitrary), or
the timeout tick on which the soft-state refresh floods (which change no
state) run and, every `REFRESH_RATE` ticks, the inactivity reap runs. -/
inductive Step : ServerState → ServerState → Prop
  | login (name ip : String) (now : Nat) (s : ServerState) :
      Step s (server_login_request name ip now s).1
  | logout (ip : String) (ids : List Int) (s : ServerState) :
      Step s (server_logout_request ip ids s).1
  | join (channel ip selfIp : String) (now : Nat) (s : ServerState) :
      Step s (server_join_request channel ip selfIp now s).1
  | leave (channel ip : String) (now : Nat) (newId : Int) (s : ServerState) :
      Step s (server_leave_request channel ip now newId s).1
  | say (channel text ip : String) (now : Nat) (newId : Int)
      (s : ServerState) :
      Step s (server_say_request channel text ip now newId s).1
  | list (ip : String) (now : Nat) (newId : Int) (s : ServerState) :
      Step s (server_list_request ip now newId s).1
  | who (channel ip : String) (now : Nat) (newId : Int) (s : ServerState) :
      Step s (server_who_request channel ip now newId s).1
  | keepAlive (ip : String) (now : Nat) (s : ServerState) :
      Step s (server_keep_alive_request ip now s).1
  | verify (name ip : String) (newId : Int) (s : ServerState) :
      Step s (server_verify_request name ip newId s).1
  | sJoin (channel senderIp : String) (now : Nat) (s : ServerState) :
      Step s (s2s_join_request channel senderIp now s).1
  | sLeave (channel senderIp : String) (s : ServerState) :
      Step s (s2s_leave_request channel senderIp s).1
  | sSay (id : Int) (channel username text senderIp : String) (now : Nat)
      (s : ServerState) :
      Step s (s2s_say_request id channel username text senderIp now s).1
  | sLeaf (id : Int) (channel senderIp : String) (s : ServerState) :
      Step s (s2s_leaf_request id channel senderIp s).1
  | sList (id : Int) (client : String) (chans toVisit : List String)
      (senderIp : String) (s : ServerState) :
      Step s (s2s_list_request id client chans toVisit senderIp s).1
  | sWho (id : Int) (channel client : String) (names toVisit : List String)
      (senderIp : String) (s : ServerState) :
      Step s (s2s_who_request id channel client names toVisit senderIp s).1
  | sVerify (id : Int) (name client : String) (toVisit : List String)
      (senderIp : String) (s : ServerState) :
      Step s (s2s_verify_request id name client toVisit senderIp s).1
  | sKeepAlive (senderIp : String) (now : Nat) (s : ServerState) :
      Step s (s2s_keep_alive_request senderIp now s).1
  | tick (now : Nat) (ids : List Int) (s : ServerState) :
      Step s (remove_inactive_servers now (logout_inactive_users now ids s).1).1

/-- States reachable from a startup state by event-loop iterations. -/
def Reachable (peers : List (String × Peer)) (s : ServerState) : Prop :=
  Relation.ReflTransGen Step (initState peers) s

/-- A sequence of `queue_id` insertions, oldest first. -/
def queue_ids (ids : List Int) (s : ServerState) : ServerState :=
  ids.foldl (fun st i => queue_id i st) s

/-- The leaf test exactly as claim C2 words it (spec §4.5): a leaf iff
(a) the node has no peers, or (b) the routing-table entry has fewer than 2
entries and the local channel membership is empty.  Defined only to be
compared against `leaf_test`, which is embedded from the source. -/
def leaf_test_claim (channel : String) (s : ServerState) : Bool :=
  HM.isEmpty s.neighbors ||
    (decide (((HM.get s.rtable channel).getD []).length < 2) &&
      ((HM.get s.channels channel).getD []).isEmpty)

/-- A state with no peers, an empty routing-table entry for "k", and no
membership for "k": claim C2 calls this node a leaf for "k" (clause (a)),
but the source's test does not. -/
def noPeersState : ServerState :=
  { users := []
    channels := [(DEFAULT_CHANNEL, [])]
    neighbors := []
    rtable := [("k", [])]
    idCache := List.replicate MSGQ_SIZE 0
    currIndex := 0 }

/-- A state holding one known peer whose last-activity minute is 5. -/
def peerFixedState : ServerState :=
  { users := []
    channels := [(DEFAULT_CHANNEL, [])]
    neighbors := [("9.9.9.9:1", ⟨"9.9.9.9:1", 5⟩)]
    rtable := []
    idCache := List.replicate MSGQ_SIZE 0
    currIndex := 0 }

/-- A state with one logged-in user "alice" (endpoint 1.1.1.1:2, member of
the default channel, last active at minute 3). -/
def aliceState : ServerState :=
  { users := [("1.1.1.1:2", ⟨"1.1.1.1:2", "alice", [DEFAULT_CHANNEL], 3⟩)]
    channels := [(DEFAULT_CHANNEL, ["1.1.1.1:2"])]
    neighbors := []
    rtable := []
    idCache := List.replicate MSGQ_SIZE 0
    currIndex := 0 }

/-- A state for exercising the S2S handlers with the unknown sender
"X:1": two known peers A:1 and B:1, and a routing-table entry for "k"
that still lists X:1. -/
def unknownSenderState : ServerState :=
  { users := []
    channels := [(DEFAULT_CHANNEL, [])]
    neighbors := [("A:1", ⟨"A:1", 0⟩), ("B:1", ⟨"B:1", 0⟩)]
    rtable := [("k", ["X:1", "A:1", "B:1"])]
    idCache := List.replicate MSGQ_SIZE 0
    currIndex := 0 }

/-- The local-delivery step of the SAY handlers: TXT_SAY to every member of
the channel when the channel exists in the membership map, nothing
otherwise. -/
def local_broadcast (s : ServerState) (channel username text : String) :
    List Send :=
  match HM.get s.channels channel with
  | some mem => broadcast_message mem username channel text
  | none => []

/-- The loop-prune reply of the leaf branch: S2S LEAVE to the single
remaining upstream peer of the routing entry, or nothing when the entry is
empty. -/
def upstream_leave (channel : String) (entry : List String) : List Send :=
  match entry with
  | [] => []
  | q :: _ => [(q, Packet.s2sLeave (strTrunc (CHANNEL_MAX - 1) channel))]

/-- A two-peer state where "k" has one local member and both peers are
routing-table subscribers for it. -/
def sayState : ServerState :=
  { users := [("u:1", ⟨"u:1", "alice", ["k"], 0⟩)]
    channels := [(DEFAULT_CHANNEL, []), ("k", ["u:1"])]
    neighbors := [("A:1", ⟨"A:1", 0⟩), ("B:1", ⟨"B:1", 0⟩)]
    rtable := [("k", ["A:1", "B:1"])]
    idCache := List.replicate MSGQ_SIZE 0
    currIndex := 0 }

namespace HM

theorem get_put_eq {V : Type} (l : List (String × V)) (k : String) (v : V) :
    get (put l k v) k = some v := by
  induction l with
  | nil => simp [put, get]
  | cons hd t ih =>
      obtain ⟨k1, v1⟩ := hd
      by_cases hk : k1 = k <;> simp [put, get, hk, ih]

theorem get_put_ne {V : Type} (l : List (String × V)) (k k2 : String)
    (v : V) (h : k ≠ k2) : get (put l k v) k2 = get l k2 := by
  induction l with
  | nil => simp [put, get, h]
  | cons hd t ih =>
      obtain ⟨k1, v1⟩ := hd
      by_cases hk : k1 = k
      · subst hk
        simp [put, get, h]
      · simp [put, get, hk, ih]

theorem get_remove_ne {V : Type} (l : List (String × V)) (k k2 : String)
    (h : k ≠ k2) : get (remove l k) k2 = get l k2 := by
  induction l with
  | nil => simp [remove, get]
  | cons hd t ih =>
      obtain ⟨k1, v1⟩ := hd
      by_cases hk : k1 = k
      · subst hk
        simp [remove, get, h]
      · simp [remove, get, hk, ih]

theorem containsKey_put_of {V : Type} (l : List (String × V))
    (k k2 : String) (v : V) (h : containsKey l k2 = true) :
    containsKey (put l k v) k2 = true := by
  by_cases hk : k = k2
  · subst hk
    simp [containsKey, get_put_eq]
  · simpa [containsKey, get_put_ne l k k2 v hk] using h

theorem containsKey_remove_of {V : Type} (l : List (String × V))
    (k k2 : String) (hne : k ≠ k2) (h : containsKey l k2 = true) :
    containsKey (remove l k) k2 = true := by
  simpa [containsKey, get_remove_ne l k k2 hne] using h

end HM

theorem channels_update_user_time (ip : String) (now : Nat)
    (s : ServerState) : (update_user_time ip now s).channels = s.channels := by
  unfold update_user_time
  split <;> rfl

theorem channels_update_server_time (ip : String) (now : Nat)
    (s : ServerState) :
    (update_server_time ip now s).channels = s.channels := by
  unfold update_server_time
  split <;> rfl

theorem channels_queue_id (id : Int) (s : ServerState) :
    (queue_id id s).channels = s.channels := rfl

theorem channels_remove_server_leaf (ch : String) (s : ServerState) :
    (remove_server_leaf ch s).2.1.channels = s.channels := by
  unfold remove_server_leaf
  split
  · dsimp only
    split <;> rfl
  · rfl

theorem channels_server_join_channel (ch : String) (s : ServerState) :
    (server_join_channel ch s).channels = s.channels := rfl

theorem channels_remove_server (ip : String) (chs : List String)
    (s : ServerState) : (remove_server ip chs s).1.channels = s.channels := by
  induction chs generalizing s with
  | nil => rfl
  | cons ch rest ih =>
      unfold remove_server
      split
      · exact ih s
      · split
        · rw [ih]
          simp [channels_remove_server_leaf]
        · exact ih s

theorem common_login (name ip : String) (now : Nat) (s : ServerState)
    (h : HM.containsKey s.channels DEFAULT_CHANNEL = true) :
    HM.containsKey (server_login_request name ip now s).1.channels
      DEFAULT_CHANNEL = true := h

theorem common_join (channel ip selfIp : String) (now : Nat)
    (s : ServerState)
    (h : HM.containsKey s.channels DEFAULT_CHANNEL = true) :
    HM.containsKey (server_join_request channel ip selfIp now s).1.channels
      DEFAULT_CHANNEL = true := by
  unfold server_join_request
  split
  · exact h
  · dsimp only
    repeat' split
    all_goals
      simp_all [apply_ite, channels_update_user_time,
        channels_server_join_channel, HM.containsKey_put_of]

theorem common_leave (channel ip : String) (now : Nat) (newId : Int)
    (s : ServerState)
    (h : HM.containsKey s.channels DEFAULT_CHANNEL = true) :
    HM.containsKey (server_leave_request channel ip now newId s).1.channels
      DEFAULT_CHANNEL = true := by
  unfold server_leave_request
  split
  · exact h
  · dsimp only
    repeat' split
    all_goals
      simp_all [apply_ite, channels_update_user_time,
        channels_remove_server_leaf, channels_queue_id,
        HM.containsKey_put_of, HM.containsKey_remove_of]

theorem common_logout_loop (uip : String) (chs : List String)
    (ids : List Int) (s : ServerState)
    (h : HM.containsKey s.channels DEFAULT_CHANNEL = true) :
    HM.containsKey (logout_loop uip chs ids s).1.channels
      DEFAULT_CHANNEL = true := by
  induction chs generalizing ids s with
  | nil => exact h
  | cons ch rest ih =>
      unfold logout_loop
      split
      · exact ih ids s h
      · dsimp only
        repeat' split
        all_goals
          apply ih
          simp_all [apply_ite, channels_remove_server_leaf,
            channels_queue_id, HM.containsKey_put_of,
            HM.containsKey_remove_of]

theorem common_logout (ip : String) (ids : List Int) (s : ServerState)
    (h : HM.containsKey s.channels DEFAULT_CHANNEL = true) :
    HM.containsKey (server_logout_request ip ids s).1.channels
      DEFAULT_CHANNEL = true := by
  unfold server_logout_request
  split
  · exact h
  · exact common_logout_loop _ _ _ _ h

theorem common_say (channel text ip : String) (now : Nat) (newId : Int)
    (s : ServerState)
    (h : HM.containsKey s.channels DEFAULT_CHANNEL = true) :
    HM.containsKey (server_say_request channel text ip now newId s).1.channels
      DEFAULT_CHANNEL = true := by
  unfold server_say_request
  split
  · exact h
  · split
    · exact h
    · dsimp only
      split <;>
        simp_all [channels_update_user_time, channels_queue_id]

theorem common_list (ip : String) (now : Nat) (newId : Int)
    (s : ServerState)
    (h : HM.containsKey s.channels DEFAULT_CHANNEL = true) :
    HM.containsKey (server_list_request ip now newId s).1.channels
      DEFAULT_CHANNEL = true := by
  unfold server_list_request
  try dsimp only
  repeat' (first | split | dsimp only)
  all_goals
    simp_all [channels_update_user_time, channels_queue_id]

theorem common_who (channel ip : String) (now : Nat) (newId : Int)
    (s : ServerState)
    (h : HM.containsKey s.channels DEFAULT_CHANNEL = true) :
    HM.containsKey (server_who_request channel ip now newId s).1.channels
      DEFAULT_CHANNEL = true := by
  unfold server_who_request
  try dsimp only
  repeat' (first | split | dsimp only)
  all_goals
    simp_all [channels_update_user_time, channels_queue_id]

theorem common_keep_alive (ip : String) (now : Nat) (s : ServerState)
    (h : HM.containsKey s.channels DEFAULT_CHANNEL = true) :
    HM.containsKey (server_keep_alive_request ip now s).1.channels
      DEFAULT_CHANNEL = true := by
  unfold server_keep_alive_request
  try dsimp only
  repeat' (first | split | dsimp only)
  all_goals
    simp_all [channels_update_user_time]

theorem common_verify (name ip : String) (newId : Int) (s : ServerState)
    (h : HM.containsKey s.channels DEFAULT_CHANNEL = true) :
    HM.containsKey (server_verify_request name ip newId s).1.channels
      DEFAULT_CHANNEL = true := by
  unfold server_verify_request
  try dsimp only
  repeat' (first | split | dsimp only)
  all_goals
    simp_all [channels_queue_id]

theorem common_s2s_join (channel senderIp : String) (now : Nat)
    (s : ServerState)
    (h : HM.containsKey s.channels DEFAULT_CHANNEL = true) :
    HM.containsKey (s2s_join_request channel senderIp now s).1.channels
      DEFAULT_CHANNEL = true := by
  unfold s2s_join_request
  try dsimp only
  repeat' (first | split | dsimp only)
  all_goals
    simp_all [channels_update_server_time, channels_server_join_channel]

theorem common_s2s_leave (channel senderIp : String) (s : ServerState)
    (h : HM.containsKey s.channels DEFAULT_CHANNEL = true) :
    HM.containsKey (s2s_leave_request channel senderIp s).1.channels
      DEFAULT_CHANNEL = true := by
  unfold s2s_leave_request
  try dsimp only
  repeat' (first | split | dsimp only)
  all_goals
    simp_all [channels_remove_server_leaf]

theorem common_s2s_say (id : Int) (channel username text senderIp : String)
    (now : Nat) (s : ServerState)
    (h : HM.containsKey s.channels DEFAULT_CHANNEL = true) :
    HM.containsKey
      (s2s_say_request id channel username text senderIp now s).1.channels
      DEFAULT_CHANNEL = true := by
  unfold s2s_say_request
  try dsimp only
  repeat' (first | split | dsimp only)
  all_goals
    simp_all [channels_update_server_time, channels_queue_id,
      channels_remove_server_leaf]

theorem common_s2s_leaf (id : Int) (channel senderIp : String)
    (s : ServerState)
    (h : HM.containsKey s.channels DEFAULT_CHANNEL = true) :
    HM.containsKey (s2s_leaf_request id channel senderIp s).1.channels
      DEFAULT_CHANNEL = true := by
  unfold s2s_leaf_request
  try dsimp only
  repeat' (first | split | dsimp only)
  all_goals
    simp_all [channels_remove_server_leaf, channels_queue_id]

theorem common_s2s_list (id : Int) (client : String)
    (chans toVisit : List String) (senderIp : String) (s : ServerState)
    (h : HM.containsKey s.channels DEFAULT_CHANNEL = true) :
    HM.containsKey
      (s2s_list_request id client chans toVisit senderIp s).1.channels
      DEFAULT_CHANNEL = true := by
  unfold s2s_list_request
  try dsimp only
  repeat' (first | split | dsimp only)
  all_goals
    simp_all [apply_ite, channels_queue_id]

theorem common_s2s_who (id : Int) (channel client : String)
    (names toVisit : List String) (senderIp : String) (s : ServerState)
    (h : HM.containsKey s.channels DEFAULT_CHANNEL = true) :
    HM.containsKey
      (s2s_who_request id channel client names toVisit senderIp s).1.channels
      DEFAULT_CHANNEL = true := by
  unfold s2s_who_request
  try dsimp only
  repeat' (first | split | dsimp only)
  all_goals
    simp_all [apply_ite, channels_queue_id]

theorem common_s2s_verify (id : Int) (name client : String)
    (toVisit : List String) (senderIp : String) (s : ServerState)
    (h : HM.containsKey s.channels DEFAULT_CHANNEL = true) :
    HM.containsKey
      (s2s_verify_request id name client toVisit senderIp s).1.channels
      DEFAULT_CHANNEL = true := by
  unfold s2s_verify_request
  try dsimp only
  repeat' (first | split | dsimp only)
  all_goals
    simp_all [apply_ite, channels_queue_id]

theorem common_s2s_keep_alive (senderIp : String) (now : Nat)
    (s : ServerState)
    (h : HM.containsKey s.channels DEFAULT_CHANNEL = true) :
    HM.containsKey (s2s_keep_alive_request senderIp now s).1.channels
      DEFAULT_CHANNEL = true := by
  unfold s2s_keep_alive_request
  try dsimp only
  repeat' (first | split | dsimp only)
  all_goals
    simp_all [channels_update_server_time]

theorem common_reap_users (entries : List (String × User)) (now : Nat)
    (ids : List Int) (s : ServerState)
    (h : HM.containsKey s.channels DEFAULT_CHANNEL = true) :
    HM.containsKey (reap_users_loop entries now ids s).1.channels
      DEFAULT_CHANNEL = true := by
  induction entries generalizing ids s with
  | nil => exact h
  | cons e rest ih =>
      unfold reap_users_loop
      split
      · dsimp only
        apply ih
        exact common_logout_loop _ _ _ _ h
      · exact ih ids s h

theorem common_logout_inactive (now : Nat) (ids : List Int)
    (s : ServerState)
    (h : HM.containsKey s.channels DEFAULT_CHANNEL = true) :
    HM.containsKey (logout_inactive_users now ids s).1.channels
      DEFAULT_CHANNEL = true := by
  unfold logout_inactive_users
  split
  · exact h
  · exact common_reap_users _ _ _ _ h

theorem common_reap_servers (entries : List (String × Peer))
    (chs : List String) (now : Nat) (s : ServerState)
    (h : HM.containsKey s.channels DEFAULT_CHANNEL = true) :
    HM.containsKey (reap_servers_loop entries chs now s).1.channels
      DEFAULT_CHANNEL = true := by
  induction entries generalizing s with
  | nil => exact h
  | cons e rest ih =>
      unfold reap_servers_loop
      split
      · dsimp only
        apply ih
        simp [channels_remove_server]
        exact h
      · exact ih s h

theorem common_remove_inactive (now : Nat) (s : ServerState)
    (h : HM.containsKey s.channels DEFAULT_CHANNEL = true) :
    HM.containsKey (remove_inactive_servers now s).1.channels
      DEFAULT_CHANNEL = true := by
  unfold remove_inactive_servers
  split
  · exact h
  · exact common_reap_servers _ _ _ _ h

/-- C7: the default channel "Common" is a key of the channel-membership map
from startup onward: it is created at startup, and no event-loop step
(client or S2S handler, or the inactivity reap) ever removes it, even when
its membership list becomes empty, so it is a key in every reachable
state. -/
theorem common_channel_persistent (peers : List (String × Peer))
    (s : ServerState) (h : Reachable peers s) :
    HM.containsKey s.channels DEFAULT_CHANNEL = true := by
  induction h with
  | refl => rfl
  | tail _ hstep ih =>
      cases hstep with
      | login name ip now => exact common_login name ip now _ ih
      | logout ip ids => exact common_logout ip ids _ ih
      | join channel ip selfIp now => exact common_join channel ip selfIp now _ ih
      | leave channel ip now newId => exact common_leave channel ip now newId _ ih
      | say channel text ip now newId => exact common_say channel text ip now newId _ ih
      | list ip now newId => exact common_list ip now newId _ ih
      | who channel ip now newId => exact common_who channel ip now newId _ ih
      | keepAlive ip now => exact common_keep_alive ip now _ ih
      | verify name ip newId => exact common_verify name ip newId _ ih
      | sJoin channel senderIp now => exact common_s2s_join channel senderIp now _ ih
      | sLeave channel senderIp => exact common_s2s_leave channel senderIp _ ih
      | sSay id channel username text senderIp now =>
          exact common_s2s_say id channel username text senderIp now _ ih
      | sLeaf id channel senderIp => exact common_s2s_leaf id channel senderIp _ ih
      | sList id client chans toVisit senderIp =>
          exact common_s2s_list id client chans toVisit senderIp _ ih
      | sWho id channel client names toVisit senderIp =>
          exact common_s2s_who id channel client names toVisit senderIp _ ih
      | sVerify id name client toVisit senderIp =>
          exact common_s2s_verify id name client toVisit senderIp _ ih
      | sKeepAlive senderIp now => exact common_s2s_keep_alive senderIp now _ ih
      | tick now ids =>
          exact common_remove_inactive now _ (common_logout_inactive now ids _ ih)

/-- Witness for `common_channel_persistent` at the startup state itself. -/
theorem common_channel_persistent_witness :
    HM.containsKey (initState []).channels DEFAULT_CHANNEL = true :=
  common_channel_persistent [] (initState []) Relation.ReflTransGen.refl

theorem queue_ids_append (ids : List Int) (x : Int) (s : ServerState) :
    queue_ids (ids ++ [x]) s = queue_id x (queue_ids ids s) := by
  simp [queue_ids, List.foldl_append]

theorem queue_ids_length (ids : List Int) (s : ServerState) :
    (queue_ids ids s).idCache.length = s.idCache.length := by
  induction ids generalizing s with
  | nil => rfl
  | cons a t ih =>
      show (queue_ids t (queue_id a s)).idCache.length = _
      rw [ih]
      simp [queue_id]

theorem queue_id_currIndex (x : Int) (s : ServerState)
    (h : s.currIndex < 48) :
    (queue_id x s).currIndex = (s.currIndex + 1) % 48 := by
  simp only [queue_id, MSGQ_SIZE]
  split <;> omega

theorem queue_ids_currIndex (ids : List Int) (s : ServerState)
    (h : s.currIndex < 48) :
    (queue_ids ids s).currIndex = (s.currIndex + ids.length) % 48 := by
  induction ids generalizing s with
  | nil => simp [queue_ids]; omega
  | cons a t ih =>
      have h1 : (queue_id a s).currIndex < 48 := by
        simp only [queue_id, MSGQ_SIZE]
        split <;> omega
      show (queue_ids t (queue_id a s)).currIndex = _
      rw [ih _ h1, queue_id_currIndex _ _ h]
      simp only [List.length_cons]
      omega

theorem queue_ids_slot (peers : List (String × Peer)) (ids : List Int)
    (j : Nat) (hj : j < 48) :
    (queue_ids ids (initState peers)).idCache.getD j 0 =
      if j < ids.length then
        ids.getD (j + 48 * ((ids.length - 1 - j) / 48)) 0
      else 0 := by
  induction ids using List.reverseRecOn with
  | nil =>
      simp only [queue_ids, List.foldl_nil, initState, List.length_replicate,
        MSGQ_SIZE, hj, if_pos]
      rw [List.getD_eq_getElem?_getD, List.getElem?_replicate]
      simp [hj]
  | append_singleton t x ih =>
      rw [queue_ids_append]
      have hidx : (queue_ids t (initState peers)).currIndex = t.length % 48 := by
        have := queue_ids_currIndex t (initState peers) (by simp [initState])
        simpa [initState] using this
      have hlen : (queue_ids t (initState peers)).idCache.length = 48 := by
        simpa [initState, MSGQ_SIZE] using queue_ids_length t (initState peers)
      by_cases hcase : j = t.length % 48
      · have hget : (queue_id x (queue_ids t (initState peers))).idCache.getD j 0 = x := by
          simp only [queue_id, hidx, ← hcase]
          rw [List.getD_eq_getElem?_getD, List.getElem?_set_self (by omega)]
          rfl
        rw [hget]
        have hj2 : j < t.length + 1 := by omega
        have hix : j + 48 * ((t.length + 1 - 1 - j) / 48) = t.length := by omega
        simp only [List.length_append, List.length_singleton, hj2, if_pos, hix]
        rw [List.getD_eq_getElem?_getD, List.getElem?_append_right (by omega)]
        simp
      · have hget : (queue_id x (queue_ids t (initState peers))).idCache.getD j 0 =
            (queue_ids t (initState peers)).idCache.getD j 0 := by
          simp only [queue_id, hidx]
          rw [List.getD_eq_getElem?_getD, List.getElem?_set_ne (by omega),
            List.getD_eq_getElem?_getD]
        rw [hget, ih]
        by_cases hlt : j < t.length
        · have hne48 : (t.length - 1 - j) / 48 = (t.length + 1 - 1 - j) / 48 := by
            omega
          have hb : j + 48 * ((t.length - 1 - j) / 48) < t.length := by omega
          simp only [hlt, if_pos, List.length_append, List.length_singleton,
            show j < t.length + 1 by omega, ← hne48]
          rw [List.getD_eq_getElem?_getD, List.getD_eq_getElem?_getD,
            List.getElem?_append_left hb]
        · have hge : ¬ j < t.length + 1 := by omega
          simp [hlt, hge]

/-- C6: starting from the zero-initialized ring, after any sequence of
insertions the ID cache still has exactly 48 slots (so never more than 48
entries); the next insertion writes at the current ring index and advances
the index modulo 48; and when at least 48 insertions have occurred the slot
the next insertion overwrites holds the oldest surviving entry (the one
inserted 48 insertions ago). -/
theorem id_cache_ring (peers : List (String × Peer)) (ids : List Int)
    (x : Int) :
    (queue_ids ids (initState peers)).idCache.length = 48 ∧
    (queue_ids ids (initState peers)).currIndex = ids.length % 48 ∧
    queue_id x (queue_ids ids (initState peers)) =
      { queue_ids ids (initState peers) with
        idCache := (queue_ids ids (initState peers)).idCache.set
          (ids.length % 48) x
        currIndex := (ids.length + 1) % 48 } ∧
    (48 ≤ ids.length →
      (queue_ids ids (initState peers)).idCache.getD (ids.length % 48) 0 =
        ids.getD (ids.length - 48) 0) := by
  have hlen : (queue_ids ids (initState peers)).idCache.length = 48 := by
    simpa [initState, MSGQ_SIZE] using queue_ids_length ids (initState peers)
  have hidx : (queue_ids ids (initState peers)).currIndex =
      ids.length % 48 := by
    have := queue_ids_currIndex ids (initState peers) (by simp [initState])
    simpa [initState] using this
  refine ⟨hlen, hidx, ?_, ?_⟩
  · have hlt : (queue_ids ids (initState peers)).currIndex < 48 := by omega
    have h2 := queue_id_currIndex x (queue_ids ids (initState peers)) hlt
    simp only [queue_id, hidx] at h2 ⊢
    rw [h2]
    congr 1
    omega
  · intro h48
    have := queue_ids_slot peers ids (ids.length % 48) (by omega)
    rw [this]
    have hlt : ids.length % 48 < ids.length := by omega
    have hix : ids.length % 48 + 48 * ((ids.length - 1 - ids.length % 48) / 48) =
        ids.length - 48 := by omega
    simp [hlt, hix]

/-- Witness for `id_cache_ring`: a concrete run of 50 insertions; slot 2
(the next to be overwritten) holds the 3rd-oldest insertion, i.e. the
oldest of the surviving 48. -/
theorem id_cache_ring_witness :
    48 ≤ ((List.range 50).map Int.ofNat).length ∧
    (queue_ids ((List.range 50).map Int.ofNat)
        (initState [])).idCache.getD
        (((List.range 50).map Int.ofNat).length % 48) 0 =
      ((List.range 50).map Int.ofNat).getD
        (((List.range 50).map Int.ofNat).length - 48) 0 :=
  ⟨by decide,
    (id_cache_ring [] ((List.range 50).map Int.ofNat) 0).2.2.2 (by decide)⟩

/-- Counterexample to C2: with no peers the claim classifies the node as a
leaf, but `remove_server_leaf` returns 0 before even reading the routing
table (`if (hm_isEmpty(neighbors)) return 0;`). -/
theorem leaf_test_no_peers_cex :
    leaf_test_claim "k" noPeersState = true ∧
    leaf_test "k" noPeersState = false := by
  constructor <;> rfl

/-- Helper characterization of the source's leaf test as one boolean
expression. -/
theorem leaf_test_characterization (channel : String) (s : ServerState) :
    leaf_test channel s =
      (!HM.isEmpty s.neighbors &&
        (decide (((HM.get s.rtable channel).getD []).length < 2) &&
          ((HM.get s.channels channel).getD []).isEmpty)) := by
  unfold leaf_test
  split
  · simp_all
  · cases hc : HM.get s.channels channel <;> simp_all

/-- C2 amended: the pruning leaf test classifies this node as a leaf iff
the node has at least one peer AND the routing-table entry for the channel
has fewer than 2 entries AND the local membership of the channel (empty if
the channel is absent) is empty; in particular a node with no peers is
never classified as a leaf. -/
theorem leaf_test_amended (channel : String) (s : ServerState) :
    leaf_test channel s =
      (!HM.isEmpty s.neighbors &&
        (decide (((HM.get s.rtable channel).getD []).length < 2) &&
          ((HM.get s.channels channel).getD []).isEmpty)) :=
  leaf_test_characterization channel s

theorem neighbors_remove_server_leaf (ch : String) (s : ServerState) :
    (remove_server_leaf ch s).2.1.neighbors = s.neighbors := by
  unfold remove_server_leaf
  split
  · dsimp only
    split <;> rfl
  · rfl

theorem neighbors_server_join_channel (ch : String) (s : ServerState) :
    (server_join_channel ch s).neighbors = s.neighbors := rfl

theorem neighbors_queue_id (id : Int) (s : ServerState) :
    (queue_id id s).neighbors = s.neighbors := rfl

theorem neighbors_update_server_time (p : String) (now : Nat)
    (s : ServerState) (sender : Peer)
    (hp : HM.get s.neighbors p = some sender) :
    (update_server_time p now s).neighbors =
      HM.put s.neighbors p { sender with lastMin := now } := by
  unfold update_server_time
  rw [hp]

theorem neighbors_s2s_join (ch p : String) (now : Nat) (s : ServerState)
    (sender : Peer) (hp : HM.get s.neighbors p = some sender) :
    (s2s_join_request ch p now s).1.neighbors =
      HM.put s.neighbors p { sender with lastMin := now } := by
  unfold s2s_join_request
  simp only [hp]
  try dsimp only
  repeat' (first | split | dsimp only)
  all_goals
    simp_all [neighbors_update_server_time p now s sender hp,
      neighbors_server_join_channel]

theorem neighbors_s2s_say (id : Int) (ch u t p : String) (now : Nat)
    (s : ServerState) (sender : Peer)
    (hp : HM.get s.neighbors p = some sender) :
    (s2s_say_request id ch u t p now s).1.neighbors =
      HM.put s.neighbors p { sender with lastMin := now } := by
  unfold s2s_say_request
  simp only [hp]
  try dsimp only
  repeat' (first | split | dsimp only)
  all_goals
    simp_all [neighbors_update_server_time p now s sender hp,
      neighbors_remove_server_leaf, neighbors_queue_id]

theorem neighbors_s2s_keep_alive (p : String) (now : Nat) (s : ServerState)
    (sender : Peer) (hp : HM.get s.neighbors p = some sender) :
    (s2s_keep_alive_request p now s).1.neighbors =
      HM.put s.neighbors p { sender with lastMin := now } := by
  unfold s2s_keep_alive_request
  simp only [hp]
  exact neighbors_update_server_time p now s sender hp

theorem neighbors_s2s_leave (ch p : String) (s : ServerState) :
    (s2s_leave_request ch p s).1.neighbors = s.neighbors := by
  unfold s2s_leave_request
  repeat' (first | split | dsimp only)
  all_goals simp_all [neighbors_remove_server_leaf]

theorem neighbors_s2s_leaf (id : Int) (ch p : String) (s : ServerState) :
    (s2s_leaf_request id ch p s).1.neighbors = s.neighbors := by
  unfold s2s_leaf_request
  repeat' (first | split | dsimp only)
  all_goals
    simp_all [neighbors_remove_server_leaf, neighbors_queue_id]

theorem neighbors_s2s_list (id : Int) (c : String) (chs tv : List String)
    (p : String) (s : ServerState) :
    (s2s_list_request id c chs tv p s).1.neighbors = s.neighbors := by
  unfold s2s_list_request
  repeat' (first | split | dsimp only)
  all_goals simp_all [apply_ite, neighbors_queue_id]

theorem neighbors_s2s_who (id : Int) (ch c : String) (ns tv : List String)
    (p : String) (s : ServerState) :
    (s2s_who_request id ch c ns tv p s).1.neighbors = s.neighbors := by
  unfold s2s_who_request
  repeat' (first | split | dsimp only)
  all_goals simp_all [apply_ite, neighbors_queue_id]

theorem neighbors_s2s_verify (id : Int) (n c : String) (tv : List String)
    (p : String) (s : ServerState) :
    (s2s_verify_request id n c tv p s).1.neighbors = s.neighbors := by
  unfold s2s_verify_request
  repeat' (first | split | dsimp only)
  all_goals simp_all [apply_ite, neighbors_queue_id]

/-- Counterexample to C3: an S2S LEAVE from the known peer leaves the
whole state - in particular the peer's last-activity minute, still 5 -
untouched; the handler never reads the clock, so the minute is not set to
the current wall-clock minute (e.g. on a datagram arriving at minute 6). -/
theorem s2s_leave_no_time_update_cex :
    s2s_leave_request "k" "9.9.9.9:1" peerFixedState =
      (peerFixedState, []) ∧
    HM.get (s2s_leave_request "k" "9.9.9.9:1" peerFixedState).1.neighbors
      "9.9.9.9:1" = some ⟨"9.9.9.9:1", 5⟩ := by
  constructor <;> rfl

/-- C3 amended: only the S2S JOIN, SAY and KEEP-ALIVE handlers update the
sending peer's last-activity minute (each does so on entry, and changes
nothing else in the peer map); the S2S LEAVE, LEAF, LIST, WHO and VERIFY
handlers never touch the peer map at all. -/
theorem s2s_time_update_discipline :
    (∀ (ch p : String) (now : Nat) (s : ServerState) (sender : Peer),
      HM.get s.neighbors p = some sender →
        (s2s_join_request ch p now s).1.neighbors =
          HM.put s.neighbors p { sender with lastMin := now }) ∧
    (∀ (id : Int) (ch u t p : String) (now : Nat) (s : ServerState)
        (sender : Peer),
      HM.get s.neighbors p = some sender →
        (s2s_say_request id ch u t p now s).1.neighbors =
          HM.put s.neighbors p { sender with lastMin := now }) ∧
    (∀ (p : String) (now : Nat) (s : ServerState) (sender : Peer),
      HM.get s.neighbors p = some sender →
        (s2s_keep_alive_request p now s).1.neighbors =
          HM.put s.neighbors p { sender with lastMin := now }) ∧
    (∀ (ch p : String) (s : ServerState),
      (s2s_leave_request ch p s).1.neighbors = s.neighbors) ∧
    (∀ (id : Int) (ch p : String) (s : ServerState),
      (s2s_leaf_request id ch p s).1.neighbors = s.neighbors) ∧
    (∀ (id : Int) (c : String) (chs tv : List String) (p : String)
        (s : ServerState),
      (s2s_list_request id c chs tv p s).1.neighbors = s.neighbors) ∧
    (∀ (id : Int) (ch c : String) (ns tv : List String) (p : String)
        (s : ServerState),
      (s2s_who_request id ch c ns tv p s).1.neighbors = s.neighbors) ∧
    (∀ (id : Int) (n c : String) (tv : List String) (p : String)
        (s : ServerState),
      (s2s_verify_request id n c tv p s).1.neighbors = s.neighbors) :=
  ⟨neighbors_s2s_join, neighbors_s2s_say, neighbors_s2s_keep_alive,
    neighbors_s2s_leave, neighbors_s2s_leaf, neighbors_s2s_list,
    neighbors_s2s_who, neighbors_s2s_verify⟩

/-- Witness for `s2s_time_update_discipline`: the S2S KEEP-ALIVE conjunct
applied at the concrete one-peer state, minute 7. -/
theorem s2s_time_update_discipline_witness :
    (s2s_keep_alive_request "9.9.9.9:1" 7 peerFixedState).1.neighbors =
      HM.put peerFixedState.neighbors "9.9.9.9:1" ⟨"9.9.9.9:1", 7⟩ :=
  s2s_time_update_discipline.2.2.1 "9.9.9.9:1" 7 peerFixedState
    ⟨"9.9.9.9:1", 5⟩ (by rfl)

/-- Counterexample to C4: a second LOGIN ("bob", minute 7) from the
already-logged-in endpoint does alter the state - the user record is
replaced by a fresh one (new username, empty channel list) while the old
membership entry stays behind - even though no reply is sent.  The handler
performs no already-logged-in check; `hm_put` hands the old record back
through its `previous` out-parameter (passed as NULL here) and stores the
new one. -/
theorem login_existing_user_cex :
    (server_login_request "bob" "1.1.1.1:2" 7 aliceState).1 ≠ aliceState ∧
    HM.get (server_login_request "bob" "1.1.1.1:2" 7 aliceState).1.users
      "1.1.1.1:2" = some ⟨"1.1.1.1:2", "bob", [], 7⟩ ∧
    (server_login_request "bob" "1.1.1.1:2" 7 aliceState).2 = [] := by
  refine ⟨?_, rfl, rfl⟩
  intro h
  have h2 := congrArg (fun st => HM.get st.users "1.1.1.1:2") h
  simp only [server_login_request, aliceState, HM.put, HM.get] at h2
  exact absurd h2 (by decide)

/-- C4 amended: a LOGIN from an endpoint that already has a user record
sends no reply, but replaces the record with a fresh one carrying the
truncated username from the packet, an empty channel list and the current
minute; channel membership lists (which reference the endpoint) are not
updated. -/
theorem login_existing_user_replaces (name ip : String) (now : Nat)
    (s : ServerState) (u : User) (_hu : HM.get s.users ip = some u) :
    server_login_request name ip now s =
      ({ s with users := HM.put s.users ip (User.mk ip (strTrunc (USERNAME_MAX - 1) name) [] now) }, []) ∧
    (server_login_request name ip now s).1.channels = s.channels := by
  exact ⟨rfl, rfl⟩

/-- Witness for `login_existing_user_replaces` at the concrete state. -/
theorem login_existing_user_replaces_witness :
    server_login_request "bob" "1.1.1.1:2" 7 aliceState =
      ({ aliceState with users := HM.put aliceState.users "1.1.1.1:2" (User.mk "1.1.1.1:2" (strTrunc (USERNAME_MAX - 1) "bob") [] 7) }, []) :=
  (login_existing_user_replaces "bob" "1.1.1.1:2" 7 aliceState
    ⟨"1.1.1.1:2", "alice", [DEFAULT_CHANNEL], 3⟩ (by rfl)).1

theorem strTrunc_eq_self (n : Nat) (s : String) (h : s.length ≤ n) :
    strTrunc n s = s := by
  unfold strTrunc
  rw [List.take_of_length_le h]

/-- C8: a LEAVE from a logged-in client naming a channel (within the wire
field's 31-character bound) that is not a key of the channel-membership map
sends that client exactly one TXT_ERROR reading
"No channel by the name <c>." and changes nothing except the client's
last-activity minute: users keep all other fields, and the channel map,
routing table, peer map and ID cache are untouched. -/
theorem leave_unknown_channel (channel ip : String) (now : Nat)
    (newId : Int) (s : ServerState) (u : User)
    (hu : HM.get s.users ip = some u)
    (hlen : channel.length ≤ CHANNEL_MAX - 1)
    (hch : HM.get s.channels channel = none) :
    server_leave_request channel ip now newId s =
      ({ s with users := HM.put s.users ip { u with lastMin := now } },
        [(u.ip, Packet.txtError ("No channel by the name " ++ channel ++ "."))]) := by
  have htr : strTrunc (CHANNEL_MAX - 1) channel = channel :=
    strTrunc_eq_self _ _ hlen
  have h23 : ("No channel by the name ").length = 23 := rfl
  have hdot : (".").length = 1 := rfl
  have hmsg : ("No channel by the name " ++ channel ++ ".").length ≤
      SAY_MAX - 1 := by
    rw [String.length_append, String.length_append, h23, hdot]
    unfold SAY_MAX
    unfold CHANNEL_MAX at hlen
    omega
  unfold server_leave_request
  simp only [hu]
  rw [htr, channels_update_user_time, hch]
  unfold update_user_time server_send_error
  rw [hu, strTrunc_eq_self _ _ hmsg]

/-- Witness for `leave_unknown_channel`: alice leaves the nonexistent
channel "games" at minute 9. -/
theorem leave_unknown_channel_witness :
    server_leave_request "games" "1.1.1.1:2" 9 0 aliceState =
      ({ aliceState with users := HM.put aliceState.users "1.1.1.1:2" (User.mk "1.1.1.1:2" "alice" [DEFAULT_CHANNEL] 9) },
        [("1.1.1.1:2", Packet.txtError "No channel by the name games.")]) :=
  leave_unknown_channel "games" "1.1.1.1:2" 9 0 aliceState
    ⟨"1.1.1.1:2", "alice", [DEFAULT_CHANNEL], 3⟩ (by rfl) (by decide) (by rfl)

/-- C10: every client request other than LOGIN and VERIFY arriving from an
endpoint with no user record is silently dropped: no reply, no state
change. -/
theorem unknown_client_dropped (s : ServerState) (ip : String)
    (h : HM.get s.users ip = none) :
    (∀ (channel selfIp : String) (now : Nat),
      server_join_request channel ip selfIp now s = (s, [])) ∧
    (∀ (channel : String) (now : Nat) (newId : Int),
      server_leave_request channel ip now newId s = (s, [])) ∧
    (∀ (channel text : String) (now : Nat) (newId : Int),
      server_say_request channel text ip now newId s = (s, [])) ∧
    (∀ (now : Nat) (newId : Int),
      server_list_request ip now newId s = (s, [])) ∧
    (∀ (channel : String) (now : Nat) (newId : Int),
      server_who_request channel ip now newId s = (s, [])) ∧
    (∀ (now : Nat), server_keep_alive_request ip now s = (s, [])) ∧
    (∀ (ids : List Int), server_logout_request ip ids s = (s, [])) := by
  refine ⟨?_, ?_, ?_, ?_, ?_, ?_, ?_⟩ <;> intros <;>
    simp only [server_join_request, server_leave_request,
      server_say_request, server_list_request, server_who_request,
      server_keep_alive_request, server_logout_request, h]

/-- Witness for `unknown_client_dropped`: a LIST request from an endpoint
unknown to the empty startup state. -/
theorem unknown_client_dropped_witness :
    server_list_request "2.2.2.2:9" 0 0 (initState []) = (initState [], []) :=
  (unknown_client_dropped (initState []) "2.2.2.2:9" (by rfl)).2.2.2.1 0 0

/-- C9: S2S JOIN and S2S SAY silently ignore datagrams whose sender is not
in the peer map (no state change, no sends), while S2S LEAVE, LEAF, LIST,
WHO and VERIFY process such datagrams in full, as the concrete runs from
`unknownSenderState` (sender "X:1" unknown) show: LEAVE removes the sender
from the routing entry; LEAF queues the ID and forwards the probe; LIST,
WHO and VERIFY queue the ID and forward the gather packet onward. -/
theorem s2s_sender_validation :
    (∀ (channel p : String) (now : Nat) (s : ServerState),
      HM.get s.neighbors p = none →
        s2s_join_request channel p now s = (s, [])) ∧
    (∀ (id : Int) (channel username text p : String) (now : Nat)
        (s : ServerState),
      HM.get s.neighbors p = none →
        s2s_say_request id channel username text p now s = (s, [])) ∧
    s2s_leave_request "k" "X:1" unknownSenderState =
      ({ unknownSenderState with rtable := [("k", ["A:1", "B:1"])] }, []) ∧
    s2s_leaf_request 7 "k" "X:1" unknownSenderState =
      (queue_id 7 unknownSenderState,
        [("A:1", Packet.s2sLeaf 7 "k"), ("B:1", Packet.s2sLeaf 7 "k")]) ∧
    s2s_list_request 7 "C:9" [] [] "X:1" unknownSenderState =
      (queue_id 7 unknownSenderState,
        [("A:1", Packet.s2sList 7 "C:9" [DEFAULT_CHANNEL] ["B:1"])]) ∧
    s2s_who_request 7 DEFAULT_CHANNEL "C:9" [] [] "X:1" unknownSenderState =
      (queue_id 7 unknownSenderState,
        [("A:1", Packet.s2sWho 7 DEFAULT_CHANNEL "C:9" [] ["B:1"])]) ∧
    s2s_verify_request 7 "alice" "C:9" [] "X:1" unknownSenderState =
      (queue_id 7 unknownSenderState,
        [("A:1", Packet.s2sVerify 7 "alice" "C:9" ["B:1"])]) := by
  refine ⟨?_, ?_, ?_, ?_, ?_, ?_, ?_⟩
  · intro channel p now s h
    simp only [s2s_join_request, h]
  · intro id channel username text p now s h
    simp only [s2s_say_request, h]
  all_goals decide

/-- Witness for `s2s_sender_validation`: an S2S JOIN from the unknown
sender "X:1" is a complete no-op on the concrete state. -/
theorem s2s_sender_validation_witness :
    s2s_join_request "k" "X:1" 3 unknownSenderState =
      (unknownSenderState, []) :=
  s2s_sender_validation.1 "k" "X:1" 3 unknownSenderState (by rfl)

theorem map_ip_put_time (l : List (String × Peer)) (p : String) (v : Peer)
    (now : Nat) (hget : HM.get l p = some v) :
    (HM.put l p { v with lastMin := now }).map (fun e => e.2.ip) =
      l.map (fun e => e.2.ip) := by
  induction l with
  | nil => simp [HM.get] at hget
  | cons hd t ih =>
      obtain ⟨k1, v1⟩ := hd
      by_cases hk : k1 = p
      · subst hk
        have hv : v1 = v := by simpa [HM.get] using hget
        subst hv
        simp [HM.put]
      · simp only [HM.get, if_neg hk] at hget
        simp [HM.put, hk, ih hget]

theorem isEmpty_put_time (l : List (String × Peer)) (p : String) (v : Peer)
    (now : Nat) (hget : HM.get l p = some v) :
    (HM.put l p { v with lastMin := now }).isEmpty = l.isEmpty := by
  cases l with
  | nil => simp [HM.get] at hget
  | cons hd t =>
      obtain ⟨k1, v1⟩ := hd
      unfold HM.put
      split <;> rfl

theorem flood_list_put_time (l : List (String × Peer)) (p : String)
    (v : Peer) (now : Nat) (hget : HM.get l p = some v) (q ch : String) :
    ((HM.put l p { v with lastMin := now }).filter (fun e => e.2.ip ≠ q)).map
        (fun e => (e.2.ip, Packet.s2sJoin (strTrunc (CHANNEL_MAX - 1) ch))) =
      (l.filter (fun e => e.2.ip ≠ q)).map
        (fun e => (e.2.ip, Packet.s2sJoin (strTrunc (CHANNEL_MAX - 1) ch))) := by
  induction l with
  | nil => simp [HM.get] at hget
  | cons hd t ih =>
      obtain ⟨k1, v1⟩ := hd
      by_cases hk : k1 = p
      · subst hk
        have hv : v1 = v := by simpa [HM.get] using hget
        subst hv
        by_cases hq : v1.ip = q <;> simp [HM.put, hq]
      · simp only [HM.get, if_neg hk] at hget
        have ih2 := ih hget
        simp only [ne_eq, decide_not] at ih2
        by_cases hq : v1.ip = q <;> simp [HM.put, hk, hq, ih2]

theorem flood_update_server_time (ch q p : String) (now : Nat)
    (s : ServerState) :
    neighbor_flood_channel ch q (update_server_time p now s) =
      neighbor_flood_channel ch q s := by
  unfold update_server_time
  cases hget : HM.get s.neighbors p with
  | none => rfl
  | some v =>
      unfold neighbor_flood_channel HM.isEmpty
      dsimp only
      rw [isEmpty_put_time s.neighbors p v now hget]
      split
      · rfl
      · exact flood_list_put_time s.neighbors p v now hget q ch

theorem rtable_update_server_time (p : String) (now : Nat)
    (s : ServerState) :
    (update_server_time p now s).rtable = s.rtable := by
  unfold update_server_time
  split <;> rfl

theorem map_ip_update_server_time (p : String) (now : Nat)
    (s : ServerState) :
    (update_server_time p now s).neighbors.map (fun e => e.2.ip) =
      s.neighbors.map (fun e => e.2.ip) := by
  unfold update_server_time
  cases hget : HM.get s.neighbors p with
  | none => rfl
  | some v => exact map_ip_put_time s.neighbors p v now hget

/-- C5: on S2S JOIN(channel) from known peer P: if the channel is not in
the routing table, a new entry is created seeded with all current peers
(including P) and an S2S JOIN is flooded to every peer except P; if the
channel is already in the routing table, P is appended only when absent and
nothing is sent.  (In both branches P's last-activity minute is updated
first, per the amended C3.) -/
theorem s2s_join_behavior (channel p : String) (now : Nat)
    (s : ServerState) (sender : Peer)
    (hp : HM.get s.neighbors p = some sender) (hip : sender.ip = p) :
    (HM.get s.rtable channel = none →
      s2s_join_request channel p now s =
        ({ update_server_time p now s with rtable := HM.put s.rtable channel (s.neighbors.map (fun e => e.2.ip)) },
          neighbor_flood_channel channel p s)) ∧
    (∀ entry, HM.get s.rtable channel = some entry →
      (entry.contains p = true →
        s2s_join_request channel p now s = (update_server_time p now s, [])) ∧
      (entry.contains p = false →
        s2s_join_request channel p now s =
          ({ update_server_time p now s with rtable := HM.put s.rtable channel (entry ++ [p]) }, []))) := by
  constructor
  · intro hnone
    unfold s2s_join_request
    simp only [hp]
    try dsimp only
    rw [rtable_update_server_time, hnone]
    dsimp only
    unfold server_join_channel
    rw [rtable_update_server_time, map_ip_update_server_time]
    have hfl : neighbor_flood_channel channel p
        { update_server_time p now s with rtable := HM.put s.rtable channel (s.neighbors.map (fun e => e.2.ip)) } =
        neighbor_flood_channel channel p (update_server_time p now s) := rfl
    rw [hfl, flood_update_server_time]
  · intro entry hentry
    constructor
    · intro hc
      unfold s2s_join_request
      simp only [hp]
      try dsimp only
      rw [rtable_update_server_time, hentry]
      simp only [hc]
      simp
    · intro hc
      unfold s2s_join_request
      simp only [hp]
      try dsimp only
      rw [rtable_update_server_time, hentry]
      simp only [hc, hip]
      simp

/-- Witness for `s2s_join_behavior`: peer A:1 joins the unsubscribed
channel "m"; the entry is seeded with A:1 and B:1 and the join is
re-flooded to B:1 only. -/
theorem s2s_join_behavior_witness :
    s2s_join_request "m" "A:1" 4 unknownSenderState =
      ({ update_server_time "A:1" 4 unknownSenderState with rtable := HM.put unknownSenderState.rtable "m" (unknownSenderState.neighbors.map (fun e => e.2.ip)) },
        neighbor_flood_channel "m" "A:1" unknownSenderState) :=
  (s2s_join_behavior "m" "A:1" 4 unknownSenderState ⟨"A:1", 0⟩
    (by rfl) (by rfl)).1 (by rfl)

theorem idCache_update_server_time (p : String) (now : Nat)
    (s : ServerState) : (update_server_time p now s).idCache = s.idCache := by
  unfold update_server_time
  split <;> rfl

theorem id_unique_update_server_time (id : Int) (p : String) (now : Nat)
    (s : ServerState) :
    id_unique id (update_server_time p now s) = id_unique id s := by
  unfold id_unique
  rw [idCache_update_server_time]

theorem isEmpty_neighbors_update_server_time (p : String) (now : Nat)
    (s : ServerState) :
    (update_server_time p now s).neighbors.isEmpty = s.neighbors.isEmpty := by
  unfold update_server_time
  cases hget : HM.get s.neighbors p with
  | none => rfl
  | some v => exact isEmpty_put_time s.neighbors p v now hget

theorem leaf_test_time_queue (channel p : String) (id : Int) (now : Nat)
    (s : ServerState) :
    leaf_test channel (queue_id id (update_server_time p now s)) =
      leaf_test channel s := by
  rw [leaf_test_characterization, leaf_test_characterization]
  have h1 : (queue_id id (update_server_time p now s)).neighbors =
      (update_server_time p now s).neighbors := rfl
  have h2 : (queue_id id (update_server_time p now s)).rtable =
      (update_server_time p now s).rtable := rfl
  have h3 : (queue_id id (update_server_time p now s)).channels =
      (update_server_time p now s).channels := rfl
  rw [HM.isEmpty, HM.isEmpty, h1, h2, h3, isEmpty_neighbors_update_server_time,
    rtable_update_server_time, channels_update_server_time]

theorem remove_server_leaf_of_leaf (ch : String) (s : ServerState)
    (h : leaf_test ch s = true) :
    remove_server_leaf ch s =
      (true, { s with rtable := HM.remove s.rtable ch },
        match (HM.get s.rtable ch).getD [] with
        | [] => []
        | q :: _ => [(q, Packet.s2sLeave (strTrunc (CHANNEL_MAX - 1) ch))]) := by
  unfold remove_server_leaf
  rw [h]
  dsimp only
  cases hx : (HM.get s.rtable ch).getD [] <;> simp [hx]

theorem remove_server_leaf_of_not_leaf (ch : String) (s : ServerState)
    (h : leaf_test ch s = false) :
    remove_server_leaf ch s = (false, s, []) := by
  unfold remove_server_leaf
  rw [h]
  simp

/-- C1: an S2S SAY from known peer P for a channel present in the routing
table.  If the packet's ID is already cached, the handler replies to P with
S2S LEAVE for the channel and does nothing else (beyond the universal
last-activity update of amended C3).  Otherwise it queues the ID, delivers
TXT_SAY to every local member (when the channel exists in membership), and
then: if the leaf test holds it removes the routing entry and sends S2S
LEAVE to the single remaining upstream peer (none is sent when the entry is
already empty) and forwards nothing; if the node is not a leaf it forwards
the SAY unchanged to every peer of the routing entry except P. -/
theorem s2s_say_behavior (id : Int) (channel username text p : String)
    (now : Nat) (s : ServerState) (sender : Peer) (entry : List String)
    (hp : HM.get s.neighbors p = some sender) (hip : sender.ip = p)
    (hrt : HM.get s.rtable channel = some entry) :
    (id_unique id s = false →
      s2s_say_request id channel username text p now s =
        (update_server_time p now s,
          [(p, Packet.s2sLeave (strTrunc (CHANNEL_MAX - 1) channel))])) ∧
    (id_unique id s = true →
      (leaf_test channel s = true →
        s2s_say_request id channel username text p now s =
          ({ queue_id id (update_server_time p now s) with rtable := HM.remove s.rtable channel },
            local_broadcast s channel username text ++
              upstream_leave channel entry)) ∧
      (leaf_test channel s = false →
        s2s_say_request id channel username text p now s =
          (queue_id id (update_server_time p now s),
            local_broadcast s channel username text ++
              (entry.filter (fun q => q ≠ p)).map
                (fun q => (q, Packet.s2sSay id channel username text))))) := by
  have hrt1 : (update_server_time p now s).rtable = s.rtable :=
    rtable_update_server_time p now s
  have hch2 : (queue_id id (update_server_time p now s)).channels =
      s.channels := channels_update_server_time p now s
  have hrt2 : (queue_id id (update_server_time p now s)).rtable =
      s.rtable := hrt1
  refine ⟨?_, ?_⟩
  · intro hdup
    unfold s2s_say_request
    simp only [hp]
    try dsimp only
    rw [hrt1, hrt]
    try dsimp only
    rw [id_unique_update_server_time, hdup]
    simp only [hip]
    rfl
  · intro huniq
    refine ⟨?_, ?_⟩
    · intro hleaf
      unfold s2s_say_request
      simp only [hp]
      try dsimp only
      rw [hrt1, hrt]
      try dsimp only
      rw [id_unique_update_server_time, huniq]
      try dsimp only
      have hleaf2 : leaf_test channel
          (queue_id id (update_server_time p now s)) = true := by
        rw [leaf_test_time_queue]; exact hleaf
      rw [remove_server_leaf_of_leaf _ _ hleaf2]
      try dsimp only
      rw [hrt2, hch2, hrt]
      rfl
    · intro hleaf
      unfold s2s_say_request
      simp only [hp]
      try dsimp only
      rw [hrt1, hrt]
      try dsimp only
      rw [id_unique_update_server_time, huniq]
      try dsimp only
      have hleaf2 : leaf_test channel
          (queue_id id (update_server_time p now s)) = false := by
        rw [leaf_test_time_queue]; exact hleaf
      rw [remove_server_leaf_of_not_leaf _ _ hleaf2]
      try dsimp only
      rw [hch2]
      simp only [hip]
      rfl

/-- Witness for `s2s_say_behavior`: an S2S SAY with a fresh ID from peer
A:1; the node is not a leaf, so the message is delivered locally and
forwarded to B:1 only. -/
theorem s2s_say_behavior_witness :
    s2s_say_request 7 "k" "alice" "hi" "A:1" 4 sayState =
      (queue_id 7 (update_server_time "A:1" 4 sayState),
        local_broadcast sayState "k" "alice" "hi" ++
          ((["A:1", "B:1"].filter (fun q => q ≠ "A:1")).map
            (fun q => (q, Packet.s2sSay 7 "k" "alice" "hi")))) :=
  ((s2s_say_behavior 7 "k" "alice" "hi" "A:1" 4 sayState ⟨"A:1", 0⟩
      ["A:1", "B:1"] (by rfl) (by rfl) (by rfl)).2 (by decide)).2 (by rfl)
